import Mathlib

/-!
Verification development for the MHive deduplication-and-relation-graph engine.

The definitions below are a shallow embedding of the two scripts that
implement the engine:

* `scripts/generate_relations.py` — all-pairs similarity scorer
  (`calculate_similarity_score`), relation graph builder
  (`generate_relations`) and the related-incidents mirror
  (`update_related_incidents`);
* `scripts/merge_master_data.py` — normalizer (`normalize_incident`),
  dedup key generator (`generate_dedup_key`), cluster merger
  (`merge_duplicates`) and the indexed relation variant
  (`calculate_relations`).

Modelling conventions:

* Scores: every score increment in the sources is a non-negative whole
  float (+1.0, +2.0, +3.0, or `len(common_tags) * 1.0`); sums of small
  whole floats are exact in IEEE double arithmetic, so scores are
  modelled as `Nat`.
* The casualty-ratio test `min/max > 0.3` is modelled by the exact
  rational comparison `3 * max < 10 * min`; for death counts below ~9e15
  (far beyond any real input) this agrees with the float comparison.
* Python strings are modelled as `String`/`List Char`; helpers that do
  not reduce in the Lean kernel (`String.splitOn`, `String.toLower`)
  are re-implemented on `List Char` with the same semantics.
  `str.lower()` is modelled for ASCII letters (the region keyword table
  is Korean, which `lower()` leaves unchanged).
* Python's `int(...)` string parsing is modelled without the
  surrounding-whitespace and underscore-separator tolerance, which no
  date string in the corpus exercises.
* `str(list_of_tags)` (Python's list repr, used by the special-pattern
  rules) is modelled literally as `['t1', 't2']` with single quotes.
* Python `dict` preserves insertion order; it is modelled by ordered
  association lists.  Python `set` iteration order is unspecified; it is
  modelled as first-insertion order (cf. spec §9: the legacy order is
  unstable).  No theorem below depends on the chosen order.
-/

namespace MHive

/-! ## Canonical data model (spec §3; dict layout of `normalize_incident`) -/

structure SourceRef where
  sname : String
  surl : String
  deriving DecidableEq, Inhabited, Repr

structure Casualties where
  deaths : Option Int
  injuries : Option Int
  missing : Option Int
  deriving DecidableEq, Inhabited, Repr

structure Coords where
  lat : Rat
  lng : Rat
  deriving DecidableEq, Inhabited, Repr

/-- A canonical incident record.  `srcName`/`originalId` model the
internal provenance fields `_source`/`_originalId`. -/
structure Incident where
  id : Nat
  title : String
  category : String
  era : String
  date : String
  location : String
  summary : String
  description : String
  timeline : List (String × String)
  theories : List String
  tags : List String
  sources : List SourceRef
  relatedIncidents : List Nat
  images : List String
  casualties : Option Casualties
  coordinates : Option Coords
  status : String
  srcName : String
  originalId : Option Nat
  deriving DecidableEq, Inhabited, Repr

/-! ## Python string primitives on `List Char` -/

/-- `str.lower()` for one character (ASCII range; Korean is unchanged). -/
def lowerChar (c : Char) : Char :=
  if 'A' ≤ c ∧ c ≤ 'Z' then Char.ofNat (c.toNat + 32) else c

/-- `str.lower()`. -/
def lowerChars (l : List Char) : List Char := l.map lowerChar

/-- Python's substring test `needle in hay`. -/
def subOf (needle : List Char) : List Char → Bool
  | [] => needle.isEmpty
  | c :: rest => needle.isPrefixOf (c :: rest) || subOf needle rest

/-- Python's `s.split('-')` on the character list. -/
def splitDash : List Char → List (List Char)
  | [] => [[]]
  | c :: rest =>
    if c = '-' then [] :: splitDash rest
    else
      match splitDash rest with
      | l :: ls => (c :: l) :: ls
      | [] => [[c]]

/-- Decimal value of a digit run. -/
def digitsVal (l : List Char) : Nat := l.foldl (fun n c => 10 * n + (c.toNat - 48)) 0

/-- `int(s)` on a pure digit run: `none` models a raised `ValueError`. -/
def pyDigits (l : List Char) : Option Nat :=
  if l ≠ [] ∧ l.all Char.isDigit then some (digitsVal l) else none

/-- Python `int(s)` for an optionally signed decimal string. -/
def pyInt (l : List Char) : Option Int :=
  match l with
  | '-' :: rest => (pyDigits rest).map (fun n => -(n : Int))
  | '+' :: rest => (pyDigits rest).map (fun n => (n : Int))
  | other => (pyDigits other).map (fun n => (n : Int))

/-! ## `parse_year` (generate_relations.py lines 19-26) -/

/-- `parse_year`: a leading `-` denotes a BCE year (`-int(s.split('-')[1])`),
otherwise `int(s.split('-')[0])`; any `ValueError` falls back to 2000. -/
def parse_year (s : String) : Int :=
  match s.data with
  | '-' :: _ =>
    match (splitDash s.data).get? 1 with
    | some t => match pyInt t with | some n => -n | none => 2000
    | none => 2000
  | l =>
    match pyInt ((splitDash l).headD []) with
    | some n => n
    | none => 2000

/-! ## `get_region` (generate_relations.py lines 29-51) -/

/-- The fixed keyword-to-region table, in source (dict insertion) order. -/
def regions : List (String × List String) :=
  [("한국", ["한국", "서울", "부산", "대구", "인천", "광주", "대전", "울산", "진도", "화성"]),
   ("일본", ["일본", "도쿄", "오사카", "후쿠시마", "도호쿠"]),
   ("중국", ["중국", "베이징", "상하이", "난징", "탕산", "쓰촨"]),
   ("미국", ["미국", "뉴욕", "워싱턴", "캘리포니아", "텍사스", "로스앤젤레스", "뉴저지", "오클라호마", "네바다", "뉴멕시코"]),
   ("유럽", ["영국", "프랑스", "독일", "스페인", "이탈리아", "런던", "파리", "마드리드", "니스", "보스니아"]),
   ("동남아", ["인도네시아", "태국", "베트남", "필리핀", "말레이시아", "스리랑카"]),
   ("중동", ["이란", "이라크", "시리아", "레바논", "튀르키예", "베이루트", "테헤란"]),
   ("아프리카", ["르완다", "이집트", "남아프리카"]),
   ("남미", ["브라질", "페루", "칠레", "아이티"]),
   ("러시아", ["러시아", "소련", "우크라이나", "우랄", "사할린"]),
   ("인도", ["인도", "뭄바이", "보팔", "방글라데시"]),
   ("캄보디아", ["캄보디아"]),
   ("대양", ["대서양", "태평양", "인도양", "북대서양"])]

/-- `get_region`: first region (in table order) one of whose keywords is a
case-insensitive substring of the location; otherwise `"기타"` (other). -/
def get_region (location : String) : String :=
  let ll := lowerChars location.data
  match regions.find? (fun p => p.2.any (fun kw => subOf (lowerChars kw.data) ll)) with
  | some p => p.1
  | none => "기타"

/-! ## `calculate_similarity_score` (generate_relations.py lines 54-143)

The source threads a float `score` and a list `relation_types` through six
blocks.  The two accumulators never interact, so the embedding computes the
score as the sum of one component per block (each component's guard and
weight transcribed from its block) and the label list by the same chain of
appends/overrides, in block order. -/

/-- `category_names` (lines 62-70). -/
def category_names : List (String × String) :=
  [("disaster", "자연재해"), ("accident", "사고"), ("terrorism", "테러"),
   ("crime", "범죄"), ("mystery", "미스터리"), ("conspiracy", "음모론"),
   ("unsolved", "미제사건")]

/-- `category_names.get(cat, cat)`. -/
def categoryNameOf (c : String) : String :=
  ((category_names.find? (fun p => p.1 == c)).map Prod.snd).getD c

/-- Ordered first-occurrence insertion, modelling an insertion-ordered set. -/
def insertIfNew {α : Type} [DecidableEq α] (acc : List α) (x : α) : List α :=
  if x ∈ acc then acc else acc ++ [x]

/-- Deduplicate keeping the first occurrence of each element. -/
def orderedDedup {α : Type} [DecidableEq α] (l : List α) : List α :=
  l.foldl insertIfNew []

/-- `list(set(tags1) & set(tags2))`: the distinct common tags (first-seen
order; Python's set order is unspecified and nothing proved depends on it). -/
def commonList (a b : Incident) : List String :=
  (orderedDedup a.tags).filter (fun t => t ∈ b.tags)

/-- Block 1 (+2 for equal categories). -/
def catScoreC (a b : Incident) : Nat :=
  if a.category = b.category then 2 else 0

/-- Block 2 (+3 when both locations map to the same non-"기타" region). -/
def regionScoreC (a b : Incident) : Nat :=
  if get_region a.location = get_region b.location ∧ get_region a.location ≠ "기타" then 3 else 0

/-- Block 3 (+2 within 2 years, else +1 within 5 years). -/
def yearScoreC (a b : Incident) : Nat :=
  let d := (parse_year a.date - parse_year b.date).natAbs
  if d ≤ 2 then 2 else if d ≤ 5 then 1 else 0

/-- Block 4 (`if common_tags: score += len(common_tags) * 1.0`). -/
def tagScoreC (a b : Incident) : Nat :=
  if commonList a b ≠ [] then (commonList a b).length else 0

/-- Truthiness of a casualties dict (`if cas1 and cas2`): a present,
non-empty mapping. -/
def casTruthy (c : Casualties) : Bool :=
  c.deaths.isSome || c.injuries.isSome || c.missing.isSome

/-- `inc.get('casualties', {})` is truthy. -/
def casPresent (inc : Incident) : Bool :=
  match inc.casualties with
  | some c => casTruthy c
  | none => false

/-- `cas.get('deaths', 0)`. -/
def deathsOf (inc : Incident) : Int :=
  match inc.casualties with
  | some c => c.deaths.getD 0
  | none => 0

/-- The guard under which block 5 computes `min/max`: both casualty dicts
truthy and both death counts strictly positive. -/
def casualtyGuard (a b : Incident) : Bool :=
  casPresent a && casPresent b && decide (0 < deathsOf a) && decide (0 < deathsOf b)

/-- The divisor of block 5's ratio `min(d1,d2) / max(d1,d2)`. -/
def casualtyDivisor (a b : Incident) : Int :=
  max (deathsOf a) (deathsOf b)

/-- `min/max > 0.3`, as the exact comparison `3 * max < 10 * min`. -/
def ratioHigh (a b : Incident) : Bool :=
  decide (3 * max (deathsOf a) (deathsOf b) < 10 * min (deathsOf a) (deathsOf b))

/-- Block 5 (+1 for similar casualty scale). -/
def casScoreC (a b : Incident) : Nat :=
  if casualtyGuard a b && ratioHigh a b then 1 else 0

/-- Python's `str(tags)` — the list repr `['t1', 't2']`. -/
def reprTagsAux : List String → List Char
  | [] => []
  | [t] => Char.ofNat 39 :: t.data ++ [Char.ofNat 39]
  | t :: ts => (Char.ofNat 39 :: t.data ++ [Char.ofNat 39]) ++ [',', ' '] ++ reprTagsAux ts

/-- `str(inc.get('tags', []))`. -/
def reprTags (ts : List String) : List Char := ['['] ++ reprTagsAux ts ++ [']']

/-- `', '.join(l)` (kernel-reducible replacement for `String.intercalate`). -/
def joinCommaSp : List String → String
  | [] => ""
  | [x] => x
  | x :: xs => x ++ ", " ++ joinCommaSp xs

/-- Special pattern 1 (lines 114-117): `'원전' in str(tags1) and '원전' in str(tags2)`. -/
def nuclearFires (a b : Incident) : Bool :=
  subOf "원전".data (reprTags a.tags) && subOf "원전".data (reprTags b.tags)

/-- Special pattern 2 (lines 119-122): both tag reprs contain `'항공'`. -/
def aviationFires (a b : Incident) : Bool :=
  subOf "항공".data (reprTags a.tags) && subOf "항공".data (reprTags b.tags)

/-- Special pattern 3 (lines 124-128): both tag reprs contain one of
`'해상'`, `'침몰'`, `'선박'`. -/
def maritimeFires (a b : Incident) : Bool :=
  (["해상", "침몰", "선박"].any (fun t => subOf t.data (reprTags a.tags))) &&
  (["해상", "침몰", "선박"].any (fun t => subOf t.data (reprTags b.tags)))

/-- Special pattern 4 (lines 130-134): `'연쇄살인' in title + str(tags)` on
both sides. -/
def serialFires (a b : Incident) : Bool :=
  subOf "연쇄살인".data (a.title.data ++ reprTags a.tags) &&
  subOf "연쇄살인".data (b.title.data ++ reprTags b.tags)

/-- The five additive blocks of the scorer, before special patterns. -/
def baseScore (a b : Incident) : Nat :=
  catScoreC a b + regionScoreC a b + yearScoreC a b + tagScoreC a b + casScoreC a b

/-- `calculate_similarity_score`: returns the score and the single
best-fit relation label (`relation_types[-1]`, default `"관련 사건"`). -/
def calculate_similarity_score (a b : Incident) : Nat × String :=
  let score :=
    catScoreC a b + regionScoreC a b + yearScoreC a b + tagScoreC a b + casScoreC a b
    + (if nuclearFires a b then 2 else 0) + (if aviationFires a b then 2 else 0)
    + (if maritimeFires a b then 2 else 0) + (if serialFires a b then 3 else 0)
  let t1 : List String :=
    if a.category = b.category then ["동일 유형: " ++ categoryNameOf a.category] else []
  let t2 := t1 ++
    (if get_region a.location = get_region b.location ∧ get_region a.location ≠ "기타"
     then ["동일 지역: " ++ get_region a.location] else [])
  let t3 := t2 ++
    (if (parse_year a.date - parse_year b.date).natAbs ≤ 2 then ["동시대 사건"]
     else if (parse_year a.date - parse_year b.date).natAbs ≤ 5 then ["유사 시기"] else [])
  let t4 := t3 ++
    (if commonList a b ≠ []
     then ["공통 태그: " ++ joinCommaSp ((commonList a b).take 2)] else [])
  let t5 := t4 ++ (if casualtyGuard a b && ratioHigh a b then ["유사 피해 규모"] else [])
  let t6 := if nuclearFires a b then ["원전 사고"] else t5
  let t7 := if aviationFires a b then ["항공 사고"] else t6
  let t8 := if maritimeFires a b then ["해상 참사"] else t7
  let t9 := if serialFires a b then ["연쇄살인 사건"] else t8
  (score, (t9.getLast?).getD "관련 사건")

/-! ## `generate_relations` (generate_relations.py lines 146-195) -/

/-- A scored relation record `{from, to, relation, score}` (`from`/`to`
are Lean keywords, hence the `r` prefix). -/
structure RelFull where
  rfrom : Nat
  rto : Nat
  rlabel : String
  rscore : Nat
  deriving DecidableEq, Inhabited, Repr

/-- A final relation record with the numeric score stripped. -/
structure RelOut where
  rfrom : Nat
  rto : Nat
  rlabel : String
  deriving DecidableEq, Inhabited, Repr

/-- The ordered pairs `(inc[i], inc[j])` with `i < j`, in the double-loop
order of the source. -/
def ordPairs {α : Type} : List α → List (α × α)
  | [] => []
  | x :: xs => xs.map (fun y => (x, y)) ++ ordPairs xs

/-- The relation record appended for a pair that passes the threshold. -/
def mkRel (a b : Incident) : RelFull :=
  { rfrom := a.id, rto := b.id,
    rlabel := (calculate_similarity_score a b).2,
    rscore := (calculate_similarity_score a b).1 }

/-- The pair loop: skip pairs whose `(min id, max id)` was already seen,
otherwise record the pair and keep it when the score is ≥ 3.0. -/
def rawRelAux : List (Incident × Incident) → List (Nat × Nat) → List RelFull
  | [], _ => []
  | (a, b) :: rest, seen =>
    let pr := (min a.id b.id, max a.id b.id)
    if pr ∈ seen then rawRelAux rest seen
    else
      (if 3 ≤ (calculate_similarity_score a b).1 then [mkRel a b] else [])
        ++ rawRelAux rest (pr :: seen)

/-- All threshold-passing relations, in discovery order. -/
def rawRelations (incs : List Incident) : List RelFull :=
  rawRelAux (ordPairs incs) []

/-- Stable descending insertion by score. -/
def insertDesc (r : RelFull) : List RelFull → List RelFull
  | [] => [r]
  | s :: rest => if s.rscore ≤ r.rscore then r :: s :: rest else s :: insertDesc r rest

/-- `relations.sort(key=lambda x: x['score'], reverse=True)`.  Python's
sort is stable, and a stable sort's output is uniquely determined by the
key order and input order, so stable insertion sort models it exactly. -/
def sortDesc : List RelFull → List RelFull
  | [] => []
  | r :: rest => insertDesc r (sortDesc rest)

/-- `connection_count[i] += 1`. -/
def bump (cnt : Nat → Nat) (i : Nat) : Nat → Nat :=
  fun j => if j = i then cnt j + 1 else cnt j

/-- The greedy degree-cap pass (`max_connections = 5`): accept an edge only
when both endpoints' counters are < 5, then increment both counters; the
accepted edge keeps only `{from, to, relation}`. -/
def applyCapAux : List RelFull → (Nat → Nat) → List RelOut
  | [], _ => []
  | r :: rest, cnt =>
    if cnt r.rfrom < 5 ∧ cnt r.rto < 5 then
      { rfrom := r.rfrom, rto := r.rto, rlabel := r.rlabel }
        :: applyCapAux rest (bump (bump cnt r.rfrom) r.rto)
    else applyCapAux rest cnt

/-- `generate_relations`. -/
def generate_relations (incs : List Incident) : List RelOut :=
  applyCapAux (sortDesc (rawRelations incs)) (fun _ => 0)

/-! ## `update_related_incidents` (generate_relations.py lines 198-209) -/

/-- `related_map` as a function: the ids appended for incident `i`, in
relation order (`from` side first, then `to` side, per relation). -/
def related_map (rels : List RelOut) (i : Nat) : List Nat :=
  rels.flatMap (fun r =>
    (if r.rfrom = i then [r.rto] else []) ++ (if r.rto = i then [r.rfrom] else []))

/-- `update_related_incidents`. -/
def update_related_incidents (incs : List Incident) (rels : List RelOut) : List Incident :=
  incs.map (fun inc => { inc with relatedIncidents := related_map rels inc.id })

/-- Number of times `i` occurs as an endpoint of the relation list. -/
def occ (rels : List RelOut) (i : Nat) : Nat :=
  (rels.map (fun r => (if r.rfrom = i then 1 else 0) + (if r.rto = i then 1 else 0))).sum

/-! ## `normalize_incident` (merge_master_data.py lines 80-112)

Inside `normalize_incident` the only operation applied to a raw field
value (other than `dict.get`, which never raises) is the slice `[:n]` on
`summary` and `description`.  Slicing raises `TypeError` on a non-string
value (e.g. JSON `null`), so those two fields are modelled with an
explicit string-or-null type and the function returns `Except`.  The
optional passthrough metadata keys (`magnitude`, `depth`, `maxWaveHeight`,
`femaDisasterNumber`, lines 108-110) are not modelled; no claim mentions
them. -/

/-- A raw field value that will be sliced: a string or a degenerate
(`None`-like) value. -/
inductive PyStr where
  | pstr (s : String)
  | pnone
  deriving DecidableEq, Inhabited, Repr

/-- Is the value a string (so that slicing it succeeds)? -/
def isStr : PyStr → Bool
  | .pstr _ => true
  | .pnone => false

/-- A raw source record: every field may be missing. -/
structure RawRecord where
  rid : Option Nat
  title : Option String
  category : Option String
  era : Option String
  date : Option String
  location : Option String
  summary : Option PyStr
  description : Option PyStr
  timeline : Option (List (String × String))
  theories : Option (List String)
  tags : Option (List String)
  sources : Option (List SourceRef)
  images : Option (List String)
  casualties : Option Casualties
  coordinates : Option Coords
  status : Option String
  originalId : Option Nat
  deriving DecidableEq, Inhabited, Repr

/-- `normalize_incident`: defaults every missing field, truncates
`summary`/`description`, attaches provenance.  `Except.error` models the
`TypeError` Python raises when slicing a present non-string
`summary`/`description`. -/
def normalize_incident (r : RawRecord) (sourceName : String) : Except String Incident :=
  match r.summary.getD (PyStr.pstr ""), r.description.getD (PyStr.pstr "") with
  | PyStr.pstr sm, PyStr.pstr ds =>
    Except.ok
      { id := 0,
        title := r.title.getD "Unknown Incident",
        category := r.category.getD "disaster",
        era := r.era.getD "contemporary",
        date := r.date.getD "",
        location := r.location.getD "Unknown",
        summary := sm.take 400,
        description := ds.take 3000,
        timeline := r.timeline.getD [],
        theories := r.theories.getD [],
        tags := r.tags.getD [],
        sources := r.sources.getD [],
        relatedIncidents := [],
        images := r.images.getD [],
        casualties := r.casualties,
        coordinates := r.coordinates,
        status := r.status.getD "resolved",
        srcName := sourceName,
        originalId := r.originalId <|> r.rid }
  | _, _ => Except.error "TypeError"

/-! ## `generate_dedup_key` (merge_master_data.py lines 60-77)

The key string is built exactly as in the source; the two library steps
that cannot be shallowly embedded are abstract parameters:
`md5p` models `hashlib.md5(key_str.encode()).hexdigest()[:16]` and
`roundFmt` models the float formatting `f"{round(x, 1)}"`.  Every theorem
below holds for every instantiation of both. -/

/-- `key_str = f"{date[:10]}|{location.lower()[:30]}|{category}|{coord_str}"`. -/
def dedupKeyStr (roundFmt : Rat → String) (inc : Incident) : String :=
  let coordStr :=
    match inc.coordinates with
    | some c => roundFmt c.lat ++ "," ++ roundFmt c.lng
    | none => ""
  inc.date.take 10 ++ "|" ++ (String.mk (lowerChars inc.location.data)).take 30
    ++ "|" ++ inc.category ++ "|" ++ coordStr

/-- `generate_dedup_key`. -/
def generate_dedup_key (md5p : String → String) (roundFmt : Rat → String)
    (inc : Incident) : String :=
  md5p (dedupKeyStr roundFmt inc)

/-! ## `merge_duplicates` (merge_master_data.py lines 115-159) -/

/-- Append `x` to the bucket of key `k` of an insertion-ordered dict,
creating the bucket at the end if absent. -/
def insertAppend : List (String × List Incident) → String → Incident →
    List (String × List Incident)
  | [], k, x => [(k, [x])]
  | (k', l) :: rest, k, x =>
    if k' = k then (k', l ++ [x]) :: rest else (k', l) :: insertAppend rest k x

/-- `dedup_map`: group by key, keys in first-insertion order. -/
def groupByKey (dk : Incident → String) (incs : List Incident) :
    List (String × List Incident) :=
  incs.foldl (fun m inc => insertAppend m (dk inc) inc) []

/-- The max-by key of the survivor scan (lines 131-136). -/
def richKey (x : Incident) : Nat × Nat × Nat × Nat :=
  (x.description.length, x.tags.length,
   (match x.coordinates with | some _ => 1 | none => 0),
   (match x.casualties with | some c => if casTruthy c then 1 else 0 | none => 0))

/-- Python tuple `<` (lexicographic). -/
def key4Lt (p q : Nat × Nat × Nat × Nat) : Bool :=
  decide (p.1 < q.1) ||
    (p.1 == q.1 && (decide (p.2.1 < q.2.1) ||
      (p.2.1 == q.2.1 && (decide (p.2.2.1 < q.2.2.1) ||
        (p.2.2.1 == q.2.2.1 && decide (p.2.2.2 < q.2.2.2))))))

/-- Python `max(group, key=richKey)`: first maximal member wins (the scan
replaces the current best only on a strictly greater key). -/
def maxByRich (l : List Incident) : Incident :=
  match l with
  | [] => default
  | x :: xs => xs.foldl (fun best y => if key4Lt (richKey best) (richKey y) then y else best) x

/-- Url-deduplication of the concatenated sources, keeping first-seen
order (lines 146-152). -/
def urlDedup (l : List SourceRef) : List SourceRef :=
  l.foldl (fun acc s => if s.surl ∈ acc.map SourceRef.surl then acc else acc ++ [s]) []

/-- Merge a bucket of size ≥ 2: mutate the survivor's `sources` and `tags`
only.  `all_tags` is a Python set seeded with the survivor's tags and
updated with every member's tags; modelled in first-insertion order. -/
def mergeGroup (group : List Incident) : Incident :=
  let best := maxByRich group
  { best with
    sources := urlDedup (group.flatMap Incident.sources),
    tags := (orderedDedup (best.tags ++ group.flatMap Incident.tags)).take 15 }

/-- `merge_duplicates`: buckets of size 1 pass through unchanged. -/
def merge_duplicates (dk : Incident → String) (incs : List Incident) : List Incident :=
  (groupByKey dk incs).map (fun kg =>
    match kg.2 with
    | [x] => x
    | g => mergeGroup g)

/-- The dense 1-based id reassignment of the composing pipeline
(merge_master_data.py lines 269-270). -/
def renumber (incs : List Incident) : List Incident :=
  (incs.enum).map (fun p => { p.2 with id := p.1 + 1 })

/-! ## `calculate_relations`, indexed variant (merge_master_data.py
lines 162-222) — the score-accumulation part.

`scores` is a Python dict with default 0 (`scores.get(other_id, 0) + w`);
it is modelled as a function `Nat → Nat` initially 0.  Since every
increment is positive, an id is a key of the dict iff its modelled score
is positive.  The top-5 selection and relation emission (lines 220-235)
are not modelled: claim C1 concerns only the score assigned to a compared
pair. -/

/-- `int(inc.get('date', '2000')[:4])`, `none` for a raised `ValueError`. -/
def idxYear (inc : Incident) : Option Int := pyInt (inc.date.data.take 4)

/-- The `by_category` index bucket for one category, ids in corpus order. -/
def by_category (incs : List Incident) (cat : String) : List Nat :=
  (incs.filter (fun i => i.category == cat)).map Incident.id

/-- The `by_year` index bucket for one year; records whose date fails
to parse are not indexed (lines 178-184). -/
def by_year (incs : List Incident) (y : Int) : List Nat :=
  (incs.filter (fun i => idxYear i == some y)).map Incident.id

/-- The `by_tag` index bucket for one tag: one entry per occurrence of
the tag in a record's tag list (lines 186-189). -/
def by_tag (incs : List Incident) (t : String) : List Nat :=
  incs.flatMap (fun i => i.tags.flatMap (fun u => if u = t then [i.id] else []))

/-- `scores[other_id] = scores.get(other_id, 0) + w`, skipping the record
itself (`if other_id != inc_id`). -/
def addScore (s : Nat → Nat) (selfId oid w : Nat) : Nat → Nat :=
  if oid ≠ selfId then (fun j => if j = oid then s j + w else s j) else s

/-- One accumulation sweep over an index bucket. -/
def phase (selfId w : Nat) (s : Nat → Nat) (ids : List Nat) : Nat → Nat :=
  ids.foldl (fun acc oid => addScore acc selfId oid w) s

/-- The `scores` dict built for `inc` over the whole corpus: category
sweep (+2), year-window sweep (+3/+2/+1 at distance 0/1/2), one sweep per
tag (+1). -/
def scoresMap (incs : List Incident) (inc : Incident) : Nat → Nat :=
  let selfId := inc.id
  let year : Int := (idxYear inc).getD 2000
  let s1 := phase selfId 2 (fun _ => 0) (by_category incs inc.category)
  let s2 := ([year - 2, year - 1, year, year + 1, year + 2]).foldl
    (fun s y =>
      phase selfId (if y = year then 3 else if (y - year).natAbs = 1 then 2 else 1)
        s (by_year incs y)) s1
  let s3 := inc.tags.foldl (fun s t => phase selfId 1 s (by_tag incs t)) s2
  s3

/-- The per-pair value of the indexed year sweep: the window weight of
`b`'s indexed year relative to `a`'s (with `a`'s fallback year 2000). -/
def idxYearScore (a b : Incident) : Nat :=
  match idxYear b with
  | none => 0
  | some yb =>
    let ya := (idxYear a).getD 2000
    if yb = ya then 3
    else if (yb - ya).natAbs = 1 then 2
    else if (yb - ya).natAbs = 2 then 1 else 0

/-- The per-pair value of the indexed tag sweeps: shared tags counted
with multiplicity. -/
def tagMultScore (a b : Incident) : Nat :=
  (a.tags.map (fun t => b.tags.count t)).sum

/-! ## Concrete inputs for witnesses and counterexamples -/

/-- An incident with the given id/category/date/location/tags and every
other field defaulted. -/
def plainInc (i : Nat) (cat dt loc : String) (tg : List String) : Incident :=
  { id := i, title := "", category := cat, era := "contemporary", date := dt,
    location := loc, summary := "", description := "", timeline := [],
    theories := [], tags := tg, sources := [], relatedIncidents := [],
    images := [], casualties := none, coordinates := none,
    status := "resolved", srcName := "S", originalId := none }

/-- Two same-category, same-date incidents (C1's counterexample corpus). -/
def c1A : Incident := plainInc 1 "disaster" "2000-01-01" "" []

def c1B : Incident := plainInc 2 "disaster" "2000-01-01" "" []

/-- An incident pair both tagged `원전` (nuclear plant). -/
def c4A : Incident := plainInc 1 "accident" "1986-04-26" "" ["원전"]

def c4B : Incident := plainInc 2 "accident" "2011-03-11" "" ["원전"]

/-- A pair with positive death counts. -/
def c10A : Incident :=
  { plainInc 1 "disaster" "2000" "" [] with
    casualties := some { deaths := some 100, injuries := none, missing := none } }

def c10B : Incident :=
  { plainInc 2 "disaster" "2001" "" [] with
    casualties := some { deaths := some 40, injuries := none, missing := none } }

/-- A record whose tags and source urls contain duplicates (C7). -/
def c7bad : Incident :=
  { plainInc 1 "disaster" "2000-01-01" "" ["유령", "유령"] with
    sources := [{ sname := "s1", surl := "http://x" }, { sname := "s2", surl := "http://x" }] }

/-- Two raw records with the same date but different `era` fields (C6). -/
def c6rawA : RawRecord :=
  { (default : RawRecord) with era := some "ancient", date := some "2020-01-01" }

def c6rawB : RawRecord :=
  { (default : RawRecord) with date := some "2020-01-01" }

/-- A raw record whose `summary` is a present non-string value (C8). -/
def c8rawNull : RawRecord :=
  { (default : RawRecord) with summary := some PyStr.pnone }

/-- A two-member dedup bucket (C9 witness). -/
def c9g1 : Incident :=
  { plainInc 1 "disaster" "2011-03-11" "A" ["t1"] with description := "long description" }

def c9g2 : Incident :=
  { plainInc 2 "disaster" "2011-03-11" "B" ["t2"] with description := "short" }

/-- The single relation the graph builder accepts on `[c1A, c1B]`. -/
def c2e : RelOut := { rfrom := 1, rto := 2, rlabel := "동시대 사건" }

def c2x : Incident := { c1A with relatedIncidents := [2] }

def c2y : Incident := { c1B with relatedIncidents := [1] }

/-! # Theorems -/

/-! ## Generic list lemmas for the ordered-set model -/

theorem mem_insertIfNew {α : Type} [DecidableEq α] (acc : List α) (x y : α) :
    y ∈ insertIfNew acc x ↔ y ∈ acc ∨ y = x := by
  unfold insertIfNew
  split_ifs with h
  · constructor
    · exact fun hy => Or.inl hy
    · rintro (hy | rfl) <;> [exact hy; exact h]
  · simp [List.mem_append]

theorem nodup_insertIfNew {α : Type} [DecidableEq α] (acc : List α) (x : α)
    (h : acc.Nodup) : (insertIfNew acc x).Nodup := by
  unfold insertIfNew
  split_ifs with hx
  · exact h
  · simpa [List.nodup_append, h] using hx

theorem mem_foldl_insertIfNew {α : Type} [DecidableEq α] :
    ∀ (l acc : List α) (y : α), y ∈ l.foldl insertIfNew acc ↔ y ∈ acc ∨ y ∈ l
  | [], acc, y => by simp
  | x :: xs, acc, y => by
    rw [List.foldl_cons, mem_foldl_insertIfNew xs _ y, mem_insertIfNew]
    simp [or_assoc, or_comm, or_left_comm]

theorem nodup_foldl_insertIfNew {α : Type} [DecidableEq α] :
    ∀ (l acc : List α), acc.Nodup → (l.foldl insertIfNew acc).Nodup
  | [], _, h => h
  | x :: xs, acc, h =>
    nodup_foldl_insertIfNew xs _ (nodup_insertIfNew acc x h)

theorem orderedDedup_mem {α : Type} [DecidableEq α] (l : List α) (y : α) :
    y ∈ orderedDedup l ↔ y ∈ l := by
  unfold orderedDedup
  rw [mem_foldl_insertIfNew]
  simp

theorem orderedDedup_nodup {α : Type} [DecidableEq α] (l : List α) :
    (orderedDedup l).Nodup :=
  nodup_foldl_insertIfNew l [] List.nodup_nil

/-! ## Common-tag component -/

theorem commonList_nodup (a b : Incident) : (commonList a b).Nodup :=
  (orderedDedup_nodup a.tags).filter _

theorem commonList_toFinset (a b : Incident) :
    (commonList a b).toFinset = a.tags.toFinset ∩ b.tags.toFinset := by
  ext x
  simp [commonList, List.mem_filter, orderedDedup_mem]

theorem commonList_length (a b : Incident) :
    (commonList a b).length = (a.tags.toFinset ∩ b.tags.toFinset).card := by
  rw [← commonList_toFinset, List.toFinset_card_of_nodup (commonList_nodup a b)]

theorem tagScoreC_eq_length (a b : Incident) :
    tagScoreC a b = (commonList a b).length := by
  unfold tagScoreC
  split_ifs with h
  · rfl
  · simp at h
    simp [h]

/-! ## Symmetry of each scoring component -/

theorem catScoreC_comm (a b : Incident) : catScoreC a b = catScoreC b a := by
  unfold catScoreC
  rcases eq_or_ne a.category b.category with h | h
  · rw [h]
  · simp [h, Ne.symm h]

theorem regionScoreC_comm (a b : Incident) : regionScoreC a b = regionScoreC b a := by
  unfold regionScoreC
  rcases eq_or_ne (get_region a.location) (get_region b.location) with h | h
  · rw [h]
  · simp [h, Ne.symm h]

theorem yearScoreC_comm (a b : Incident) : yearScoreC a b = yearScoreC b a := by
  unfold yearScoreC
  rw [show (parse_year a.date - parse_year b.date).natAbs
        = (parse_year b.date - parse_year a.date).natAbs by omega]

theorem tagScoreC_comm (a b : Incident) : tagScoreC a b = tagScoreC b a := by
  rw [tagScoreC_eq_length, tagScoreC_eq_length, commonList_length, commonList_length,
    Finset.inter_comm]

theorem casualtyGuard_comm (a b : Incident) : casualtyGuard a b = casualtyGuard b a := by
  unfold casualtyGuard
  cases casPresent a <;> cases casPresent b <;>
    cases decide (0 < deathsOf a) <;> cases decide (0 < deathsOf b) <;> rfl

theorem ratioHigh_comm (a b : Incident) : ratioHigh a b = ratioHigh b a := by
  unfold ratioHigh
  rw [max_comm (deathsOf a), min_comm (deathsOf a)]

theorem casScoreC_comm (a b : Incident) : casScoreC a b = casScoreC b a := by
  unfold casScoreC
  rw [casualtyGuard_comm, ratioHigh_comm]

theorem nuclearFires_comm (a b : Incident) : nuclearFires a b = nuclearFires b a :=
  Bool.and_comm _ _

theorem aviationFires_comm (a b : Incident) : aviationFires a b = aviationFires b a :=
  Bool.and_comm _ _

theorem maritimeFires_comm (a b : Incident) : maritimeFires a b = maritimeFires b a :=
  Bool.and_comm _ _

theorem serialFires_comm (a b : Incident) : serialFires a b = serialFires b a :=
  Bool.and_comm _ _

/-- The score returned by the scorer, spelled out component by component. -/
theorem calcSim_fst (a b : Incident) :
    (calculate_similarity_score a b).1 =
      catScoreC a b + regionScoreC a b + yearScoreC a b + tagScoreC a b + casScoreC a b
        + (if nuclearFires a b then 2 else 0) + (if aviationFires a b then 2 else 0)
        + (if maritimeFires a b then 2 else 0) + (if serialFires a b then 3 else 0) := rfl

theorem score_comm (a b : Incident) :
    (calculate_similarity_score a b).1 = (calculate_similarity_score b a).1 := by
  rw [calcSim_fst, calcSim_fst, catScoreC_comm, regionScoreC_comm, yearScoreC_comm,
    tagScoreC_comm, casScoreC_comm, nuclearFires_comm, aviationFires_comm,
    maritimeFires_comm, serialFires_comm]

/-! ## The related-incidents mirror -/

theorem update_related_spec (incs : List Incident) (rels : List RelOut) (x : Incident)
    (hx : x ∈ update_related_incidents incs rels) :
    x.relatedIncidents = related_map rels x.id := by
  unfold update_related_incidents at hx
  rcases List.mem_map.mp hx with ⟨inc, _, rfl⟩
  rfl

theorem mem_related_map_left (rels : List RelOut) (e : RelOut) (he : e ∈ rels) :
    e.rto ∈ related_map rels e.rfrom := by
  unfold related_map
  exact List.mem_flatMap.mpr ⟨e, he, by simp⟩

theorem mem_related_map_right (rels : List RelOut) (e : RelOut) (he : e ∈ rels) :
    e.rfrom ∈ related_map rels e.rto := by
  unfold related_map
  refine List.mem_flatMap.mpr ⟨e, he, ?_⟩
  rcases eq_or_ne e.rfrom e.rto with h | h <;> simp [h]

/-- Claim C2: the similarity scorer returns the same numeric score for
`(A, B)` as for `(B, A)`; and whenever the graph builder accepts an edge
`(A, B)`, after `update_related_incidents` the `to`-id is in the
`from`-incident's `relatedIncidents` and the `from`-id is in the
`to`-incident's. -/
theorem C2_symmetry (a b : Incident) (incs : List Incident) (e : RelOut) (x y : Incident)
    (he : e ∈ generate_relations incs)
    (hx : x ∈ update_related_incidents incs (generate_relations incs))
    (hy : y ∈ update_related_incidents incs (generate_relations incs))
    (hxid : x.id = e.rfrom) (hyid : y.id = e.rto) :
    (calculate_similarity_score a b).1 = (calculate_similarity_score b a).1 ∧
    e.rto ∈ x.relatedIncidents ∧ e.rfrom ∈ y.relatedIncidents := by
  refine ⟨score_comm a b, ?_, ?_⟩
  · rw [update_related_spec incs _ x hx, hxid]
    exact mem_related_map_left _ e he
  · rw [update_related_spec incs _ y hy, hyid]
    exact mem_related_map_right _ e he

theorem C2_symmetry_witness :
    (calculate_similarity_score c1A c1B).1 = (calculate_similarity_score c1B c1A).1 ∧
    c2e.rto ∈ c2x.relatedIncidents ∧ c2e.rfrom ∈ c2y.relatedIncidents :=
  C2_symmetry c1A c1B [c1A, c1B] c2e c2x c2y (by decide) (by decide) (by decide)
    (by decide) (by decide)

/-- Claim C4: whenever at least one special pattern fires, each fired
pattern's fixed bonus is added to the accumulated score, and the returned
label is exactly the fixed label of the last fired pattern in the order
nuclear, aviation, maritime, serial-killing (the fired pattern replaces
the accumulated label list wholesale). -/
theorem C4_special_patterns (a b : Incident)
    (h : (nuclearFires a b || aviationFires a b || maritimeFires a b || serialFires a b) = true) :
    (calculate_similarity_score a b).1 =
      baseScore a b + (if nuclearFires a b then 2 else 0)
        + (if aviationFires a b then 2 else 0) + (if maritimeFires a b then 2 else 0)
        + (if serialFires a b then 3 else 0) ∧
    (calculate_similarity_score a b).2 =
      (if serialFires a b then "연쇄살인 사건"
       else if maritimeFires a b then "해상 참사"
       else if aviationFires a b then "항공 사고"
       else "원전 사고") := by
  constructor
  · rw [calcSim_fst]
    unfold baseScore
    rfl
  · cases hs : serialFires a b <;> cases hm : maritimeFires a b <;>
      cases ha : aviationFires a b <;> cases hn : nuclearFires a b <;>
      simp_all [calculate_similarity_score]

theorem C4_witness :
    (nuclearFires c4A c4B || aviationFires c4A c4B || maritimeFires c4A c4B
      || serialFires c4A c4B) = true ∧
    ((calculate_similarity_score c4A c4B).1 =
      baseScore c4A c4B + (if nuclearFires c4A c4B then 2 else 0)
        + (if aviationFires c4A c4B then 2 else 0) + (if maritimeFires c4A c4B then 2 else 0)
        + (if serialFires c4A c4B then 3 else 0) ∧
    (calculate_similarity_score c4A c4B).2 =
      (if serialFires c4A c4B then "연쇄살인 사건"
       else if maritimeFires c4A c4B then "해상 참사"
       else if aviationFires c4A c4B then "항공 사고"
       else "원전 사고")) :=
  ⟨by decide, C4_special_patterns c4A c4B (by decide)⟩

/-- Claim C10: the casualty-scale ratio `min(deaths1, deaths2) /
max(deaths1, deaths2)` is computed only under the guard that both death
counts are strictly positive, so its divisor is always positive: that
branch of the scorer never divides by zero. -/
theorem C10_no_div_by_zero (a b : Incident) (h : casualtyGuard a b = true) :
    0 < casualtyDivisor a b := by
  unfold casualtyGuard at h
  simp only [Bool.and_eq_true, decide_eq_true_eq] at h
  unfold casualtyDivisor
  exact lt_max_iff.mpr (Or.inl h.1.2)

theorem C10_witness : casualtyGuard c10A c10B = true ∧ 0 < casualtyDivisor c10A c10B :=
  ⟨by decide, C10_no_div_by_zero c10A c10B (by decide)⟩

/-- Claim C9: merging a dedup bucket of size ≥ 2 modifies only the
survivor's `sources` and `tags`: every other field of the merged record
equals the corresponding field of the member selected by the max-by-key
scan. -/
theorem C9_frame (g : List Incident) (_h : 2 ≤ g.length) :
    (mergeGroup g).id = (maxByRich g).id ∧
    (mergeGroup g).title = (maxByRich g).title ∧
    (mergeGroup g).category = (maxByRich g).category ∧
    (mergeGroup g).era = (maxByRich g).era ∧
    (mergeGroup g).date = (maxByRich g).date ∧
    (mergeGroup g).location = (maxByRich g).location ∧
    (mergeGroup g).summary = (maxByRich g).summary ∧
    (mergeGroup g).description = (maxByRich g).description ∧
    (mergeGroup g).timeline = (maxByRich g).timeline ∧
    (mergeGroup g).theories = (maxByRich g).theories ∧
    (mergeGroup g).relatedIncidents = (maxByRich g).relatedIncidents ∧
    (mergeGroup g).images = (maxByRich g).images ∧
    (mergeGroup g).casualties = (maxByRich g).casualties ∧
    (mergeGroup g).coordinates = (maxByRich g).coordinates ∧
    (mergeGroup g).status = (maxByRich g).status ∧
    (mergeGroup g).srcName = (maxByRich g).srcName ∧
    (mergeGroup g).originalId = (maxByRich g).originalId :=
  ⟨rfl, rfl, rfl, rfl, rfl, rfl, rfl, rfl, rfl, rfl, rfl, rfl, rfl, rfl, rfl, rfl, rfl⟩

theorem C9_frame_witness :
    2 ≤ ([c9g1, c9g2] : List Incident).length ∧
    ((mergeGroup [c9g1, c9g2]).id = (maxByRich [c9g1, c9g2]).id ∧
     (mergeGroup [c9g1, c9g2]).title = (maxByRich [c9g1, c9g2]).title ∧
     (mergeGroup [c9g1, c9g2]).category = (maxByRich [c9g1, c9g2]).category ∧
     (mergeGroup [c9g1, c9g2]).era = (maxByRich [c9g1, c9g2]).era ∧
     (mergeGroup [c9g1, c9g2]).date = (maxByRich [c9g1, c9g2]).date ∧
     (mergeGroup [c9g1, c9g2]).location = (maxByRich [c9g1, c9g2]).location ∧
     (mergeGroup [c9g1, c9g2]).summary = (maxByRich [c9g1, c9g2]).summary ∧
     (mergeGroup [c9g1, c9g2]).description = (maxByRich [c9g1, c9g2]).description ∧
     (mergeGroup [c9g1, c9g2]).timeline = (maxByRich [c9g1, c9g2]).timeline ∧
     (mergeGroup [c9g1, c9g2]).theories = (maxByRich [c9g1, c9g2]).theories ∧
     (mergeGroup [c9g1, c9g2]).relatedIncidents = (maxByRich [c9g1, c9g2]).relatedIncidents ∧
     (mergeGroup [c9g1, c9g2]).images = (maxByRich [c9g1, c9g2]).images ∧
     (mergeGroup [c9g1, c9g2]).casualties = (maxByRich [c9g1, c9g2]).casualties ∧
     (mergeGroup [c9g1, c9g2]).coordinates = (maxByRich [c9g1, c9g2]).coordinates ∧
     (mergeGroup [c9g1, c9g2]).status = (maxByRich [c9g1, c9g2]).status ∧
     (mergeGroup [c9g1, c9g2]).srcName = (maxByRich [c9g1, c9g2]).srcName ∧
     (mergeGroup [c9g1, c9g2]).originalId = (maxByRich [c9g1, c9g2]).originalId) :=
  ⟨by decide, C9_frame [c9g1, c9g2] (by decide)⟩

/-! ## Graph-builder invariants (C3) -/

theorem ordPairs_mem {α : Type} :
    ∀ (l : List α) (p : α × α), p ∈ ordPairs l → p.1 ∈ l ∧ p.2 ∈ l
  | [], p, h => by simp [ordPairs] at h
  | x :: xs, p, h => by
    unfold ordPairs at h
    rcases List.mem_append.mp h with h1 | h2
    · rcases List.mem_map.mp h1 with ⟨y, hy, rfl⟩
      exact ⟨List.mem_cons_self x xs, List.mem_cons_of_mem x hy⟩
    · have hp := ordPairs_mem xs p h2
      exact ⟨List.mem_cons_of_mem x hp.1, List.mem_cons_of_mem x hp.2⟩

theorem ordPairs_map_ne {α β : Type} (f : α → β) :
    ∀ (l : List α), (l.map f).Nodup → ∀ p ∈ ordPairs l, f p.1 ≠ f p.2
  | [], _, p, hp => by simp [ordPairs] at hp
  | x :: xs, hnd, p, hp => by
    rw [List.map_cons, List.nodup_cons] at hnd
    unfold ordPairs at hp
    rcases List.mem_append.mp hp with h1 | h2
    · rcases List.mem_map.mp h1 with ⟨y, hy, rfl⟩
      intro he
      exact hnd.1 (he ▸ List.mem_map_of_mem f hy)
    · exact ordPairs_map_ne f xs hnd.2 p h2

theorem rawRelAux_spec :
    ∀ (ps : List (Incident × Incident)) (seen : List (Nat × Nat)) (r : RelFull),
      r ∈ rawRelAux ps seen →
      ∃ p ∈ ps, r = mkRel p.1 p.2 ∧ 3 ≤ (calculate_similarity_score p.1 p.2).1 := by
  intro ps
  induction ps with
  | nil => intro seen r hr; simp [rawRelAux] at hr
  | cons p rest ih =>
    obtain ⟨a, b⟩ := p
    intro seen r hr
    rw [rawRelAux] at hr
    split_ifs at hr with hseen hsc
    · rcases ih _ r hr with ⟨q, hq, hrq, hsc2⟩
      exact ⟨q, List.mem_cons_of_mem _ hq, hrq, hsc2⟩
    · rcases List.mem_append.mp hr with h1 | h2
      · rcases List.mem_singleton.mp h1 with rfl
        exact ⟨(a, b), List.mem_cons_self _ _, rfl, hsc⟩
      · rcases ih _ r h2 with ⟨q, hq, hrq, hsc2⟩
        exact ⟨q, List.mem_cons_of_mem _ hq, hrq, hsc2⟩
    · rw [List.nil_append] at hr
      rcases ih _ r hr with ⟨q, hq, hrq, hsc2⟩
      exact ⟨q, List.mem_cons_of_mem _ hq, hrq, hsc2⟩

theorem rawRelations_spec (incs : List Incident) (r : RelFull)
    (hr : r ∈ rawRelations incs) :
    ∃ p ∈ ordPairs incs, r = mkRel p.1 p.2 ∧ 3 ≤ (calculate_similarity_score p.1 p.2).1 :=
  rawRelAux_spec (ordPairs incs) [] r hr

theorem insertDesc_perm (r : RelFull) : ∀ l, (insertDesc r l).Perm (r :: l)
  | [] => List.Perm.refl _
  | s :: rest => by
    unfold insertDesc
    split_ifs with h
    · exact List.Perm.refl _
    · exact ((insertDesc_perm r rest).cons s).trans (List.Perm.swap r s rest)

theorem sortDesc_perm : ∀ l, (sortDesc l).Perm l
  | [] => List.Perm.refl _
  | r :: rest => (insertDesc_perm r (sortDesc rest)).trans ((sortDesc_perm rest).cons r)

theorem applyCapAux_spec :
    ∀ (l : List RelFull) (cnt : Nat → Nat) (e : RelOut), e ∈ applyCapAux l cnt →
      ∃ r ∈ l, e = { rfrom := r.rfrom, rto := r.rto, rlabel := r.rlabel } := by
  intro l
  induction l with
  | nil => intro cnt e he; simp [applyCapAux] at he
  | cons r rest ih =>
    intro cnt e he
    rw [applyCapAux] at he
    split_ifs at he with hacc
    · rcases List.mem_cons.mp he with rfl | h2
      · exact ⟨r, List.mem_cons_self _ _, rfl⟩
      · rcases ih _ e h2 with ⟨s, hs, hes⟩
        exact ⟨s, List.mem_cons_of_mem _ hs, hes⟩
    · rcases ih _ e he with ⟨s, hs, hes⟩
      exact ⟨s, List.mem_cons_of_mem _ hs, hes⟩

theorem bump2_val (cnt : Nat → Nat) (f t i : Nat) (_hft : f ≠ t) :
    bump (bump cnt f) t i
      = cnt i + ((if f = i then 1 else 0) + (if t = i then 1 else 0)) := by
  simp only [bump]
  split_ifs <;> omega

theorem applyCapAux_occ :
    ∀ (l : List RelFull) (cnt : Nat → Nat) (i : Nat),
      (∀ r ∈ l, r.rfrom ≠ r.rto) → cnt i ≤ 5 →
      occ (applyCapAux l cnt) i + cnt i ≤ 5 := by
  intro l
  induction l with
  | nil => intro cnt i _ h5; simpa [applyCapAux, occ] using h5
  | cons r rest ih =>
    intro cnt i hne h5
    have hfr : r.rfrom ≠ r.rto := hne r (List.mem_cons_self _ _)
    have hne' : ∀ s ∈ rest, s.rfrom ≠ s.rto := fun s hs => hne s (List.mem_cons_of_mem _ hs)
    rw [applyCapAux]
    split_ifs with hacc
    · have hocc : occ ({ rfrom := r.rfrom, rto := r.rto, rlabel := r.rlabel }
          :: applyCapAux rest (bump (bump cnt r.rfrom) r.rto)) i
          = ((if r.rfrom = i then 1 else 0) + (if r.rto = i then 1 else 0))
            + occ (applyCapAux rest (bump (bump cnt r.rfrom) r.rto)) i := by
        simp [occ]
      rw [hocc]
      have hd : bump (bump cnt r.rfrom) r.rto i
          = cnt i + ((if r.rfrom = i then 1 else 0) + (if r.rto = i then 1 else 0)) :=
        bump2_val cnt r.rfrom r.rto i hfr
      by_cases h1 : r.rfrom = i
      · have h2 : ¬ r.rto = i := fun h => hfr (h1.trans h.symm)
        rw [if_pos h1, if_neg h2] at hd ⊢
        have hlt : cnt i < 5 := h1 ▸ hacc.1
        have hrec := ih (bump (bump cnt r.rfrom) r.rto) i hne' (by rw [hd]; omega)
        rw [hd] at hrec
        omega
      · by_cases h2 : r.rto = i
        · rw [if_neg h1, if_pos h2] at hd ⊢
          have hlt : cnt i < 5 := h2 ▸ hacc.2
          have hrec := ih (bump (bump cnt r.rfrom) r.rto) i hne' (by rw [hd]; omega)
          rw [hd] at hrec
          omega
        · rw [if_neg h1, if_neg h2] at hd ⊢
          have hrec := ih (bump (bump cnt r.rfrom) r.rto) i hne' (by rw [hd]; omega)
          rw [hd] at hrec
          omega
    · exact ih cnt i hne' h5

theorem length_related_map (rels : List RelOut) (i : Nat) :
    (related_map rels i).length = occ rels i := by
  induction rels with
  | nil => rfl
  | cons r rest ih =>
    simp only [related_map, occ, List.flatMap_cons, List.map_cons, List.sum_cons,
      List.length_append] at *
    rw [← ih]
    split_ifs <;> simp

theorem sorted_from_ne_to (incs : List Incident)
    (hnd : (incs.map Incident.id).Nodup) :
    ∀ r ∈ sortDesc (rawRelations incs), r.rfrom ≠ r.rto := by
  intro r hr
  have hr' := (sortDesc_perm (rawRelations incs)).mem_iff.mp hr
  rcases rawRelations_spec incs r hr' with ⟨p, hp, rfl, _⟩
  exact ordPairs_map_ne Incident.id incs hnd p hp

/-- Claim C3: every edge accepted by the relation graph builder joins a
pair of corpus incidents whose similarity score is at least 3.0, and in
the updated corpus every incident's `relatedIncidents` has length ≤ 5. -/
theorem C3_threshold_and_degree (incs : List Incident)
    (hnd : (incs.map Incident.id).Nodup) :
    (∀ e ∈ generate_relations incs, ∃ a b : Incident, a ∈ incs ∧ b ∈ incs ∧
      e.rfrom = a.id ∧ e.rto = b.id ∧ e.rlabel = (calculate_similarity_score a b).2 ∧
      3 ≤ (calculate_similarity_score a b).1) ∧
    (∀ inc ∈ update_related_incidents incs (generate_relations incs),
      inc.relatedIncidents.length ≤ 5) := by
  constructor
  · intro e he
    rcases applyCapAux_spec _ _ e he with ⟨r, hr, rfl⟩
    have hr' := (sortDesc_perm (rawRelations incs)).mem_iff.mp hr
    rcases rawRelations_spec incs r hr' with ⟨p, hp, rfl, hsc⟩
    have hmem := ordPairs_mem incs p hp
    exact ⟨p.1, p.2, hmem.1, hmem.2, rfl, rfl, rfl, hsc⟩
  · intro inc hinc
    rw [update_related_spec _ _ _ hinc, length_related_map]
    have h5 := applyCapAux_occ (sortDesc (rawRelations incs)) (fun _ => 0) inc.id
      (sorted_from_ne_to incs hnd) (by simp)
    simpa [generate_relations] using h5

theorem C3_witness :
    (([c1A, c1B] : List Incident).map Incident.id).Nodup ∧
    ((∀ e ∈ generate_relations [c1A, c1B], ∃ a b : Incident, a ∈ [c1A, c1B] ∧
        b ∈ [c1A, c1B] ∧ e.rfrom = a.id ∧ e.rto = b.id ∧
        e.rlabel = (calculate_similarity_score a b).2 ∧
        3 ≤ (calculate_similarity_score a b).1) ∧
     (∀ inc ∈ update_related_incidents [c1A, c1B] (generate_relations [c1A, c1B]),
        inc.relatedIncidents.length ≤ 5)) :=
  ⟨by decide, C3_threshold_and_degree [c1A, c1B] (by decide)⟩

/-! ## Cluster merger (C5, C7) -/

theorem insertAppend_notmem :
    ∀ (m : List (String × List Incident)) (k : String) (x : Incident),
      k ∉ m.map Prod.fst → insertAppend m k x = m ++ [(k, [x])]
  | [], _, _, _ => rfl
  | (k', l) :: rest, k, x, h => by
    rw [List.map_cons] at h
    have hne : ¬ (k' = k) := fun he => h (he ▸ List.mem_cons_self _ _)
    have hrest : k ∉ rest.map Prod.fst := fun hm => h (List.mem_cons_of_mem _ hm)
    rw [insertAppend, if_neg hne, insertAppend_notmem rest k x hrest, List.cons_append]

theorem groupByKey_singletons (dk : Incident → String) :
    ∀ (incs : List Incident) (m : List (String × List Incident)),
      (m.map Prod.fst ++ incs.map dk).Nodup →
      incs.foldl (fun m inc => insertAppend m (dk inc) inc) m
        = m ++ incs.map (fun i => (dk i, [i])) := by
  intro incs
  induction incs with
  | nil => intro m _; simp
  | cons x xs ih =>
    intro m h
    have hx : dk x ∉ m.map Prod.fst := by
      rw [List.nodup_append] at h
      exact fun hm => h.2.2 hm (List.mem_cons_self _ _)
    rw [List.foldl_cons, insertAppend_notmem m (dk x) x hx, ih (m ++ [(dk x, [x])])
      (by simpa [List.append_assoc] using h)]
    simp [List.append_assoc]

theorem merge_duplicates_eq_self (dk : Incident → String) (incs : List Incident)
    (h : (incs.map dk).Nodup) : merge_duplicates dk incs = incs := by
  unfold merge_duplicates groupByKey
  rw [groupByKey_singletons dk incs [] (by simpa using h), List.nil_append, List.map_map]
  induction incs with
  | nil => rfl
  | cons x xs ih =>
    rw [List.map_cons] at h ⊢
    exact congrArg (x :: ·) (ih h.of_cons)

/-- Claim C5: on a corpus in which no two records share a dedup key
(an already-merged corpus), running the cluster merger again is a no-op —
it returns the same records in the same order, and renumbering the result
assigns the same ids as renumbering the input.  Stated for every
instantiation of the md5 and coordinate-formatting parameters. -/
theorem C5_merge_idempotent (md5p : String → String) (roundFmt : Rat → String)
    (incs : List Incident)
    (h : (incs.map (generate_dedup_key md5p roundFmt)).Nodup) :
    merge_duplicates (generate_dedup_key md5p roundFmt) incs = incs ∧
    renumber (merge_duplicates (generate_dedup_key md5p roundFmt) incs) = renumber incs := by
  have he := merge_duplicates_eq_self _ incs h
  exact ⟨he, by rw [he]⟩

set_option maxRecDepth 20000 in
theorem C5_witness :
    (([c9g1, c9g2] : List Incident).map
      (generate_dedup_key (fun s => s) (fun _ => ""))).Nodup ∧
    (merge_duplicates (generate_dedup_key (fun s => s) (fun _ => "")) [c9g1, c9g2]
        = [c9g1, c9g2] ∧
     renumber (merge_duplicates (generate_dedup_key (fun s => s) (fun _ => ""))
        [c9g1, c9g2]) = renumber [c9g1, c9g2]) :=
  ⟨by decide, C5_merge_idempotent (fun s => s) (fun _ => "") [c9g1, c9g2] (by decide)⟩

theorem urlDedup_aux :
    ∀ (l acc : List SourceRef), (acc.map SourceRef.surl).Nodup →
      ((l.foldl (fun acc s => if s.surl ∈ acc.map SourceRef.surl then acc
        else acc ++ [s]) acc).map SourceRef.surl).Nodup
  | [], _, h => h
  | s :: rest, acc, h => by
    rw [List.foldl_cons]
    split_ifs with hmem
    · exact urlDedup_aux rest acc h
    · exact urlDedup_aux rest (acc ++ [s]) (by simp [List.nodup_append, h, hmem])

theorem mergeGroup_tags_nodup (g : List Incident) : (mergeGroup g).tags.Nodup :=
  (List.take_sublist 15 _).nodup (orderedDedup_nodup _)

theorem mergeGroup_sources_nodup (g : List Incident) :
    ((mergeGroup g).sources.map SourceRef.surl).Nodup :=
  urlDedup_aux _ [] (by simp)

theorem insertAppend_members :
    ∀ (m : List (String × List Incident)) (k : String) (x : Incident)
      (p : String × List Incident) (y : Incident),
      p ∈ insertAppend m k x → y ∈ p.2 → (∃ q ∈ m, y ∈ q.2) ∨ y = x
  | [], k, x, p, y, hp, hy => by
    rw [insertAppend, List.mem_singleton] at hp
    subst hp
    exact Or.inr (List.mem_singleton.mp hy)
  | (k', l) :: rest, k, x, p, y, hp, hy => by
    rw [insertAppend] at hp
    split_ifs at hp with hk
    · rcases List.mem_cons.mp hp with rfl | hrest
      · rcases List.mem_append.mp hy with h1 | h2
        · exact Or.inl ⟨(k', l), List.mem_cons_self _ _, h1⟩
        · exact Or.inr (List.mem_singleton.mp h2)
      · exact Or.inl ⟨p, List.mem_cons_of_mem _ hrest, hy⟩
    · rcases List.mem_cons.mp hp with rfl | hrest
      · exact Or.inl ⟨(k', l), List.mem_cons_self _ _, hy⟩
      · rcases insertAppend_members rest k x p y hrest hy with ⟨q, hq, hyq⟩ | rfl
        · exact Or.inl ⟨q, List.mem_cons_of_mem _ hq, hyq⟩
        · exact Or.inr rfl

theorem groupByKey_members (dk : Incident → String) :
    ∀ (incs : List Incident) (m : List (String × List Incident))
      (p : String × List Incident) (y : Incident),
      p ∈ incs.foldl (fun m inc => insertAppend m (dk inc) inc) m → y ∈ p.2 →
      (∃ q ∈ m, y ∈ q.2) ∨ y ∈ incs := by
  intro incs
  induction incs with
  | nil => intro m p y hp hy; exact Or.inl ⟨p, hp, hy⟩
  | cons x xs ih =>
    intro m p y hp hy
    rw [List.foldl_cons] at hp
    rcases ih (insertAppend m (dk x) x) p y hp hy with ⟨q, hq, hyq⟩ | hys
    · rcases insertAppend_members m (dk x) x q y hq hyq with ⟨q', hq', hyq'⟩ | rfl
      · exact Or.inl ⟨q', hq', hyq'⟩
      · exact Or.inr (List.mem_cons_self _ _)
    · exact Or.inr (List.mem_cons_of_mem _ hys)

/-- Claim C7 (amended): every record in the merger's output either passed
through unchanged from the input (its bucket had size 1, so duplicate tags
or duplicate source urls from the input survive) or is a merged survivor,
whose `tags` are duplicate-free and whose `sources` are url-deduplicated. -/
theorem C7_amended_nodup (dk : Incident → String) (incs : List Incident) (inc : Incident)
    (h : inc ∈ merge_duplicates dk incs) :
    inc ∈ incs ∨ (inc.tags.Nodup ∧ (inc.sources.map SourceRef.surl).Nodup) := by
  unfold merge_duplicates at h
  rcases List.mem_map.mp h with ⟨kg, hkg, rfl⟩
  rcases hshape : kg.2 with _ | ⟨x, xs⟩
  · exact Or.inr ⟨mergeGroup_tags_nodup _, mergeGroup_sources_nodup _⟩
  · rcases xs with _ | ⟨x2, xs2⟩
    · refine Or.inl ?_
      have hx : x ∈ kg.2 := by rw [hshape]; exact List.mem_singleton.mpr rfl
      rcases groupByKey_members dk incs [] kg x hkg hx with ⟨q, hq, _⟩ | hmem
      · simp at hq
      · exact hmem
    · exact Or.inr ⟨mergeGroup_tags_nodup _, mergeGroup_sources_nodup _⟩

theorem C7_amended_witness :
    c7bad ∈ merge_duplicates (fun _ => "k") [c7bad] ∧
    (c7bad ∈ [c7bad] ∨ (c7bad.tags.Nodup ∧ (c7bad.sources.map SourceRef.surl).Nodup)) :=
  ⟨by decide, C7_amended_nodup (fun _ => "k") [c7bad] c7bad (by decide)⟩

/-- Claim C7 (counterexample): a corpus whose single record carries a
duplicated tag and two sources with the same url passes through the merger
unchanged (its bucket has size 1), so the exported corpus contains an
incident with duplicate `tags` entries and duplicate source urls. -/
theorem C7_counterexample :
    merge_duplicates (generate_dedup_key (fun s => s) (fun _ => "")) [c7bad] = [c7bad] ∧
    ¬ c7bad.tags.Nodup ∧ ¬ (c7bad.sources.map SourceRef.surl).Nodup :=
  ⟨by decide, by decide, by decide⟩

/-! ## Normalizer (C6, C8) -/

/-- Claim C6 (counterexample): two raw records with identical `date`
fields normalize to different `era` values, so the normalizer's `era` is
not derived from the date's leading year component — it is copied from
the raw record's own `era` field. -/
theorem C6_counterexample :
    (normalize_incident c6rawA "S").map Incident.era = Except.ok "ancient" ∧
    (normalize_incident c6rawB "S").map Incident.era = Except.ok "contemporary" ∧
    c6rawA.date = c6rawB.date :=
  ⟨rfl, rfl, rfl⟩

/-- Claim C6 (amended): for every raw record whose present
`summary`/`description` values are strings, the normalizer produces a
canonical record whose `era` is the raw `era` defaulted to
`"contemporary"` (not derived from `date`), with `category` defaulting to
`"disaster"`, `status` to `"resolved"`, and missing sequences to empty. -/
theorem C6_amended_defaults (r : RawRecord) (sn : String)
    (h1 : isStr (r.summary.getD (PyStr.pstr "")) = true)
    (h2 : isStr (r.description.getD (PyStr.pstr "")) = true) :
    (normalize_incident r sn).map Incident.era = Except.ok (r.era.getD "contemporary") ∧
    (normalize_incident r sn).map Incident.category = Except.ok (r.category.getD "disaster") ∧
    (normalize_incident r sn).map Incident.status = Except.ok (r.status.getD "resolved") ∧
    (normalize_incident r sn).map Incident.timeline = Except.ok (r.timeline.getD []) ∧
    (normalize_incident r sn).map Incident.theories = Except.ok (r.theories.getD []) ∧
    (normalize_incident r sn).map Incident.tags = Except.ok (r.tags.getD []) ∧
    (normalize_incident r sn).map Incident.sources = Except.ok (r.sources.getD []) ∧
    (normalize_incident r sn).map Incident.images = Except.ok (r.images.getD []) ∧
    (normalize_incident r sn).map Incident.relatedIncidents = Except.ok [] := by
  unfold normalize_incident
  rcases hs : r.summary.getD (PyStr.pstr "") with s | _
  · rcases hd : r.description.getD (PyStr.pstr "") with d | _
    · exact ⟨rfl, rfl, rfl, rfl, rfl, rfl, rfl, rfl, rfl⟩
    · rw [hd] at h2
      simp [isStr] at h2
  · rw [hs] at h1
    simp [isStr] at h1

theorem C6_amended_witness :
    isStr ((default : RawRecord).summary.getD (PyStr.pstr "")) = true ∧
    isStr ((default : RawRecord).description.getD (PyStr.pstr "")) = true ∧
    ((normalize_incident (default : RawRecord) "S").map Incident.era
        = Except.ok ((default : RawRecord).era.getD "contemporary") ∧
     (normalize_incident (default : RawRecord) "S").map Incident.category
        = Except.ok ((default : RawRecord).category.getD "disaster") ∧
     (normalize_incident (default : RawRecord) "S").map Incident.status
        = Except.ok ((default : RawRecord).status.getD "resolved") ∧
     (normalize_incident (default : RawRecord) "S").map Incident.timeline
        = Except.ok ((default : RawRecord).timeline.getD []) ∧
     (normalize_incident (default : RawRecord) "S").map Incident.theories
        = Except.ok ((default : RawRecord).theories.getD []) ∧
     (normalize_incident (default : RawRecord) "S").map Incident.tags
        = Except.ok ((default : RawRecord).tags.getD []) ∧
     (normalize_incident (default : RawRecord) "S").map Incident.sources
        = Except.ok ((default : RawRecord).sources.getD []) ∧
     (normalize_incident (default : RawRecord) "S").map Incident.images
        = Except.ok ((default : RawRecord).images.getD []) ∧
     (normalize_incident (default : RawRecord) "S").map Incident.relatedIncidents
        = Except.ok []) :=
  ⟨by decide, by decide, C6_amended_defaults default "S" (by decide) (by decide)⟩

/-- Claim C8 (counterexample): a raw record whose `summary` field is a
present non-string value makes `normalize_incident` raise (Python slices
`incident.get('summary', '')[:400]` unconditionally, and slicing `None`
raises `TypeError`): normalization is not total on degenerate values. -/
theorem C8_counterexample :
    normalize_incident c8rawNull "S" = Except.error "TypeError" := rfl

/-- Claim C8 (amended): for every raw record whose present
`summary`/`description` values are strings — in particular for records
missing any or all fields — normalization never fails and never drops the
record: it returns a defaulted canonical record. -/
theorem C8_amended_total (r : RawRecord) (sn : String)
    (h1 : isStr (r.summary.getD (PyStr.pstr "")) = true)
    (h2 : isStr (r.description.getD (PyStr.pstr "")) = true) :
    ∃ inc : Incident, normalize_incident r sn = Except.ok inc := by
  unfold normalize_incident
  rcases hs : r.summary.getD (PyStr.pstr "") with s | _
  · rcases hd : r.description.getD (PyStr.pstr "") with d | _
    · exact ⟨_, rfl⟩
    · rw [hd] at h2
      simp [isStr] at h2
  · rw [hs] at h1
    simp [isStr] at h1

theorem C8_amended_witness :
    isStr ((default : RawRecord).summary.getD (PyStr.pstr "")) = true ∧
    isStr ((default : RawRecord).description.getD (PyStr.pstr "")) = true ∧
    ∃ inc, normalize_incident (default : RawRecord) "S" = Except.ok inc :=
  ⟨by decide, by decide, C8_amended_total default "S" (by decide) (by decide)⟩

/-! ## Indexed variant scoring (C1) -/

theorem addScore_val (s : Nat → Nat) (selfId oid w j : Nat) :
    addScore s selfId oid w j = if oid ≠ selfId ∧ j = oid then s j + w else s j := by
  unfold addScore
  by_cases h1 : oid ≠ selfId
  · simp only [if_pos h1]
    by_cases h2 : j = oid
    · rw [if_pos h2, if_pos ⟨h1, h2⟩]
    · rw [if_neg h2, if_neg (fun hc => h2 hc.2)]
  · rw [if_neg h1, if_neg (fun hc => h1 hc.1)]

theorem phase_val_ne (selfId w : Nat) :
    ∀ (ids : List Nat) (s : Nat → Nat) (j : Nat), j ≠ selfId →
      phase selfId w s ids j = s j + w * ids.count j
  | [], s, j, _ => by simp [phase]
  | oid :: ids, s, j, hj => by
    rw [show phase selfId w s (oid :: ids) = phase selfId w (addScore s selfId oid w) ids
        from by simp [phase]]
    rw [phase_val_ne selfId w ids _ j hj, addScore_val, List.count_cons]
    by_cases h2 : j = oid
    · have h1 : oid ≠ selfId := fun he => hj (h2.trans he)
      rw [if_pos ⟨h1, h2⟩, if_pos (show (oid == j) = true by simp [h2])]
      ring
    · have hb : ¬ (oid == j) = true := by
        simp only [beq_iff_eq]
        exact fun he => h2 he.symm
      rw [if_neg (fun hc => h2 hc.2), if_neg hb]
      ring

theorem count_filter_map_id (p : Incident → Bool) :
    ∀ (incs : List Incident) (b : Incident), (incs.map Incident.id).Nodup → b ∈ incs →
      ((incs.filter p).map Incident.id).count b.id = if p b then 1 else 0
  | [], b, _, hb => absurd hb (List.not_mem_nil b)
  | x :: rest, b, hnd, hb => by
    rw [List.map_cons, List.nodup_cons] at hnd
    rcases List.mem_cons.mp hb with rfl | hbr
    · have hzero : ((rest.filter p).map Incident.id).count b.id = 0 := by
        refine List.count_eq_zero_of_not_mem (fun hmem => hnd.1 ?_)
        rcases List.mem_map.mp hmem with ⟨y, hy, hyid⟩
        exact hyid ▸ List.mem_map_of_mem Incident.id (List.mem_of_mem_filter hy)
      by_cases hp : p b
      · rw [List.filter_cons_of_pos hp, List.map_cons, List.count_cons, hzero, if_pos hp]
        simp
      · rw [List.filter_cons_of_neg hp, hzero, if_neg hp]
    · have hbx : ¬ (x.id == b.id) = true := by
        simp only [beq_iff_eq]
        exact fun he => hnd.1 (he ▸ List.mem_map_of_mem Incident.id hbr)
      by_cases hp : p x
      · rw [List.filter_cons_of_pos hp, List.map_cons, List.count_cons,
          count_filter_map_id p rest b hnd.2 hbr, if_neg hbx, Nat.add_zero]
      · rw [List.filter_cons_of_neg hp, count_filter_map_id p rest b hnd.2 hbr]

theorem count_by_category (incs : List Incident) (a b : Incident)
    (hnd : (incs.map Incident.id).Nodup) (hb : b ∈ incs) :
    (by_category incs a.category).count b.id = if b.category = a.category then 1 else 0 := by
  unfold by_category
  rw [count_filter_map_id _ incs b hnd hb]
  simp only [beq_iff_eq]

theorem count_by_year (incs : List Incident) (y : Int) (b : Incident)
    (hnd : (incs.map Incident.id).Nodup) (hb : b ∈ incs) :
    (by_year incs y).count b.id = if idxYear b = some y then 1 else 0 := by
  unfold by_year
  rw [count_filter_map_id _ incs b hnd hb]
  simp only [beq_iff_eq]

theorem seg_count (l : List String) (i : Nat) (t : String) (j : Nat) :
    (l.flatMap (fun u => if u = t then [i] else [])).count j
      = if i = j then l.count t else 0 := by
  induction l with
  | nil => simp
  | cons u l ih =>
    rw [List.flatMap_cons, List.count_append, ih, List.count_cons]
    by_cases hij : i = j
    · subst hij
      by_cases hu : u = t
      · simp [hu]
        omega
      · simp [hu]
    · by_cases hu : u = t <;> simp [hu, hij, Ne.symm hij]

theorem by_tag_mem_ids (incs : List Incident) (t : String) (j : Nat)
    (h : j ∈ by_tag incs t) : j ∈ incs.map Incident.id := by
  unfold by_tag at h
  rcases List.mem_flatMap.mp h with ⟨x, hx, hj⟩
  rcases List.mem_flatMap.mp hj with ⟨u, _, hj2⟩
  split_ifs at hj2 with ht
  · rw [List.mem_singleton.mp hj2]
    exact List.mem_map_of_mem Incident.id hx
  · simp at hj2

theorem count_by_tag :
    ∀ (incs : List Incident) (b : Incident) (t : String),
      (incs.map Incident.id).Nodup → b ∈ incs →
      (by_tag incs t).count b.id = b.tags.count t
  | [], b, _, _, hb => absurd hb (List.not_mem_nil b)
  | x :: rest, b, t, hnd, hb => by
    rw [List.map_cons, List.nodup_cons] at hnd
    rw [show by_tag (x :: rest) t
        = x.tags.flatMap (fun u => if u = t then [x.id] else []) ++ by_tag rest t
        from by simp [by_tag], List.count_append, seg_count]
    rcases List.mem_cons.mp hb with rfl | hbr
    · have hzero : (by_tag rest t).count b.id = 0 := by
        refine List.count_eq_zero_of_not_mem (fun hmem => hnd.1 ?_)
        exact by_tag_mem_ids rest t b.id hmem
      rw [hzero, if_pos rfl, Nat.add_zero]
    · have hbx : x.id ≠ b.id := fun he => hnd.1 (he ▸ List.mem_map_of_mem Incident.id hbr)
      rw [if_neg hbx, count_by_tag rest b t hnd.2 hbr]
      omega

theorem tag_fold_val (selfId : Nat) (incs : List Incident) :
    ∀ (ts : List String) (s : Nat → Nat) (j : Nat), j ≠ selfId →
      (ts.foldl (fun s t => phase selfId 1 s (by_tag incs t)) s) j
        = s j + (ts.map (fun t => (by_tag incs t).count j)).sum
  | [], s, j, _ => by simp
  | t :: ts, s, j, hj => by
    rw [List.foldl_cons, tag_fold_val selfId incs ts _ j hj,
      phase_val_ne selfId 1 _ _ j hj, List.map_cons, List.sum_cons]
    omega

/-- The value of the indexed variant's score dict at a compared partner:
category component + windowed-year component + multiplicity-counted tag
component. -/
theorem scoresMap_val (incs : List Incident) (a b : Incident)
    (hnd : (incs.map Incident.id).Nodup) (hb : b ∈ incs) (hab : a.id ≠ b.id) :
    scoresMap incs a b.id
      = (if b.category = a.category then 2 else 0) + idxYearScore a b + tagMultScore a b := by
  have hj : b.id ≠ a.id := Ne.symm hab
  simp only [scoresMap, List.foldl_cons, List.foldl_nil]
  rw [tag_fold_val a.id incs a.tags _ b.id hj]
  rw [phase_val_ne _ _ _ _ b.id hj, phase_val_ne _ _ _ _ b.id hj,
    phase_val_ne _ _ _ _ b.id hj, phase_val_ne _ _ _ _ b.id hj,
    phase_val_ne _ _ _ _ b.id hj, phase_val_ne _ _ _ _ b.id hj]
  have htag : (a.tags.map (fun t => (by_tag incs t).count b.id)).sum = tagMultScore a b := by
    unfold tagMultScore
    exact congrArg List.sum (List.map_congr_left (fun t _ => count_by_tag incs b t hnd hb))
  rw [htag, count_by_category incs a b hnd hb,
    count_by_year incs _ b hnd hb, count_by_year incs _ b hnd hb,
    count_by_year incs _ b hnd hb, count_by_year incs _ b hnd hb,
    count_by_year incs _ b hnd hb]
  have hw1 : (if (idxYear a).getD 2000 - 2 = (idxYear a).getD 2000 then (3 : Nat)
      else if ((idxYear a).getD 2000 - 2 - (idxYear a).getD 2000).natAbs = 1 then 2 else 1)
      = 1 := by
    rw [if_neg (by omega), if_neg (by omega)]
  have hw2 : (if (idxYear a).getD 2000 - 1 = (idxYear a).getD 2000 then (3 : Nat)
      else if ((idxYear a).getD 2000 - 1 - (idxYear a).getD 2000).natAbs = 1 then 2 else 1)
      = 2 := by
    rw [if_neg (by omega), if_pos (by omega)]
  have hw3 : (if True then (3 : Nat)
      else if ((idxYear a).getD 2000 - (idxYear a).getD 2000).natAbs = 1 then 2 else 1)
      = 3 := if_pos trivial
  have hw4 : (if (idxYear a).getD 2000 + 1 = (idxYear a).getD 2000 then (3 : Nat)
      else if ((idxYear a).getD 2000 + 1 - (idxYear a).getD 2000).natAbs = 1 then 2 else 1)
      = 2 := by
    rw [if_neg (by omega), if_pos (by omega)]
  have hw5 : (if (idxYear a).getD 2000 + 2 = (idxYear a).getD 2000 then (3 : Nat)
      else if ((idxYear a).getD 2000 + 2 - (idxYear a).getD 2000).natAbs = 1 then 2 else 1)
      = 1 := by
    rw [if_neg (by omega), if_neg (by omega)]
  rw [hw1, hw2, hw3, hw4, hw5]
  rcases hyb : idxYear b with _ | yb
  · simp only [idxYearScore, hyb, reduceCtorEq, if_false]
    split_ifs <;> omega
  · simp only [idxYearScore, hyb, Option.some.injEq]
    split_ifs <;> omega

theorem orderedDedup_of_nodup {α : Type} [DecidableEq α] :
    ∀ (l acc : List α), (acc ++ l).Nodup → l.foldl insertIfNew acc = acc ++ l
  | [], acc, _ => by simp
  | x :: xs, acc, h => by
    have hx : x ∉ acc := by
      rw [List.nodup_append] at h
      exact fun hm => h.2.2 hm (List.mem_cons_self _ _)
    rw [List.foldl_cons, insertIfNew, if_neg hx,
      orderedDedup_of_nodup xs (acc ++ [x]) (by simpa [List.append_assoc] using h)]
    simp [List.append_assoc]

theorem sum_ite_mem_eq_length_filter (m : List String) :
    ∀ l : List String,
      (l.map (fun t => if t ∈ m then (1 : Nat) else 0)).sum
        = (l.filter (fun t => t ∈ m)).length
  | [] => rfl
  | x :: xs => by
    rw [List.map_cons, List.sum_cons, sum_ite_mem_eq_length_filter m xs]
    by_cases hx : x ∈ m
    · rw [if_pos hx, List.filter_cons_of_pos (by simpa using hx), List.length_cons]
      omega
    · rw [if_neg hx, List.filter_cons_of_neg (by simpa using hx)]
      omega

/-- With duplicate-free tag lists on both sides, the indexed variant's
tag component agrees with the all-pairs tag component. -/
theorem tagMult_eq_tagScore (a b : Incident) (ha : a.tags.Nodup) (hbn : b.tags.Nodup) :
    tagMultScore a b = tagScoreC a b := by
  rw [tagScoreC_eq_length]
  unfold tagMultScore commonList orderedDedup
  rw [orderedDedup_of_nodup a.tags [] (by simpa using ha), List.nil_append]
  have hcount : ∀ t ∈ a.tags, b.tags.count t = if t ∈ b.tags then 1 else 0 := by
    intro t _
    by_cases ht : t ∈ b.tags
    · rw [if_pos ht]
      exact List.count_eq_one_of_mem hbn ht
    · rw [if_neg ht]
      exact List.count_eq_zero_of_not_mem ht
  rw [List.map_congr_left hcount, sum_ite_mem_eq_length_filter b.tags a.tags]

/-- Claim C1 (counterexample): on a two-incident corpus with equal
categories and equal parseable dates the indexed variant does compare the
pair (its score entry is positive), yet it assigns 5 (category +2,
same-year weight +3) while the all-pairs formula assigns 4 (category +2,
within-2-years +2): a compared pair receives different scores. -/
theorem C1_counterexample :
    0 < scoresMap [c1A, c1B] c1A c1B.id ∧
    scoresMap [c1A, c1B] c1A c1B.id = 5 ∧
    (calculate_similarity_score c1A c1B).1 = 4 ∧
    scoresMap [c1A, c1B] c1A c1B.id ≠ (calculate_similarity_score c1A c1B).1 :=
  ⟨by decide, by decide, by decide, by decide⟩

/-- Claim C1 (amended): for a corpus with distinct ids, the score the
indexed variant assigns to a compared pair decomposes as category (+2,
same rule as the all-pairs formula) + windowed-year weight (3/2/1 at year
distance 0/1/2 of the indexed years — unlike the all-pairs rule of +2
within 2 years and +1 within 5) + shared tags counted with multiplicity
(equal to the all-pairs shared-tag component whenever both tag lists are
duplicate-free); the region, casualty-scale and special-pattern components
of the all-pairs formula have no counterpart in the indexed variant. -/
theorem C1_amended_indexed_scoring (incs : List Incident) (a b : Incident)
    (hnd : (incs.map Incident.id).Nodup) (hb : b ∈ incs) (hab : a.id ≠ b.id) :
    scoresMap incs a b.id = catScoreC a b + idxYearScore a b + tagMultScore a b ∧
    (a.tags.Nodup → b.tags.Nodup → tagMultScore a b = tagScoreC a b) ∧
    (calculate_similarity_score a b).1
      = catScoreC a b + regionScoreC a b + yearScoreC a b + tagScoreC a b + casScoreC a b
        + (if nuclearFires a b then 2 else 0) + (if aviationFires a b then 2 else 0)
        + (if maritimeFires a b then 2 else 0) + (if serialFires a b then 3 else 0) := by
  refine ⟨?_, fun ha hbn => tagMult_eq_tagScore a b ha hbn, calcSim_fst a b⟩
  rw [scoresMap_val incs a b hnd hb hab, catScoreC_comm]
  unfold catScoreC
  rfl

set_option maxRecDepth 20000 in
theorem C1_amended_witness :
    (([c1A, c1B] : List Incident).map Incident.id).Nodup ∧ c1B ∈ [c1A, c1B] ∧
    c1A.id ≠ c1B.id ∧
    (scoresMap [c1A, c1B] c1A c1B.id
        = catScoreC c1A c1B + idxYearScore c1A c1B + tagMultScore c1A c1B ∧
     (c1A.tags.Nodup → c1B.tags.Nodup → tagMultScore c1A c1B = tagScoreC c1A c1B) ∧
     (calculate_similarity_score c1A c1B).1
        = catScoreC c1A c1B + regionScoreC c1A c1B + yearScoreC c1A c1B + tagScoreC c1A c1B
          + casScoreC c1A c1B
          + (if nuclearFires c1A c1B then 2 else 0) + (if aviationFires c1A c1B then 2 else 0)
          + (if maritimeFires c1A c1B then 2 else 0) + (if serialFires c1A c1B then 3 else 0)) :=
  ⟨by decide, by decide, by decide,
    C1_amended_indexed_scoring [c1A, c1B] c1A c1B (by decide) (by decide) (by decide)⟩
